import Mathlib

/-!
Verification of the swap settlement logic of `swap-agents-server.ts`: the
`createSwapRequest` and `executeSwap` tool handlers, the mock DEX helpers
(`executeSwapOnDex`, `sendSolToAgent`) and the Pyth price-oracle wrapper
(`getCurrentExchangeRate`), embedded shallowly and proved against the
specification's claims.

Modelling conventions:
* JavaScript numbers are modelled as rationals (`ℚ`).
* `crypto.randomUUID()` is modelled by a `nextId` counter carried in the
  state: each `createSwapRequest` call consumes a fresh identifier,
  mirroring the uniqueness of freshly generated UUIDs.
* The external collaborators (the Pyth oracle transport, the ACK payment
  system returning a payment-request URL, and the payment-receipt
  verifier extracting the bound request id) are parameters of the
  operations: each call receives the collaborator's outcome as an
  argument, since those services live outside this repository.
* The simulated DEX and SOL-transfer helpers return `success: true`
  unconditionally in the source; their `success` flag is kept as an
  explicit parameter so that the failure branches present at the call
  sites (`if (!swapResult.success)`, `if (!sendResult.success)`) are
  reachable in the model. Random transaction-hash strings, which no
  claim mentions, are omitted.
* The two module-level collections `pendingSwaps : Map<string, PendingSwap>`
  and `completedSwaps : Set<string>` (lines 41-42) are modelled as an
  association list and a list of keys with JavaScript `Map`/`Set`
  get/set/delete/has/add semantics.
-/

/-- Fallback SOL/USD price, line 14 of the source: `FALLBACK_SOL_PRICE = 150`. -/
def FALLBACK_SOL_PRICE : ℚ := 150

/-- One parsed Pyth price update, keeping the two fields that
`getCurrentExchangeRate` actually uses to compute its result: the mantissa
(`price.price`, a decimal integer) and the exponent (`price.expo`).
The confidence and publish-time fields are only logged. -/
structure PythPriceData where
  price : Int
  expo : Int
deriving DecidableEq

/-- Outcome of one oracle fetch, as seen by `getCurrentExchangeRate`:
either the awaited `getLatestPriceUpdates` call throws (transport or parse
failure, handled by the `catch` block at line 139), or it returns a
response whose `parsed` list may be empty or missing (both collapse to an
empty list here, matching the `!priceUpdates?.parsed?.length` test at
line 121). -/
inductive OracleOutcome where
  | fetchError : OracleOutcome
  | response : List PythPriceData → OracleOutcome
deriving DecidableEq

/-- JavaScript `Math.round` on a rational: round half toward positive
infinity, i.e. `⌊x + 1/2⌋`. -/
def jsRound (x : ℚ) : ℤ := Int.floor (x + 1 / 2)

/-- `getCurrentExchangeRate` (lines 115-144): on a fetch error or an
empty/missing `parsed` list, return `FALLBACK_SOL_PRICE`; otherwise return
`Math.round(price * 100) / 100` where `price = Number(p.price.price) *
10 ** p.price.expo` of the first update. -/
def getCurrentExchangeRate : OracleOutcome → ℚ
  | OracleOutcome.fetchError => FALLBACK_SOL_PRICE
  | OracleOutcome.response [] => FALLBACK_SOL_PRICE
  | OracleOutcome.response (d :: _) =>
      (jsRound ((d.price : ℚ) * (10 : ℚ) ^ d.expo * 100) : ℚ) / 100

/-- The `PendingSwap` record stored in `pendingSwaps` (lines 34-39). -/
structure PendingSwap where
  usdcAmount : ℚ
  paymentRequestUrl : String
  solAmount : ℚ
  exchangeRate : ℚ
deriving DecidableEq

/-- The module-level mutable state of the swap service (lines 41-42),
plus the `nextId` counter modelling `crypto.randomUUID()` freshness. -/
structure SwapState where
  pendingSwaps : List (Nat × PendingSwap)
  completedSwaps : List Nat
  nextId : Nat
deriving DecidableEq

/-- The state at server start: both collections empty. -/
def initState : SwapState := ⟨[], [], 0⟩

/-- JavaScript `Map.prototype.get` on the association-list model. -/
def mapGet : List (Nat × PendingSwap) → Nat → Option PendingSwap
  | [], _ => none
  | p :: rest, k => if p.1 = k then some p.2 else mapGet rest k

/-- JavaScript `Map.prototype.delete` on the association-list model. -/
def mapDelete : List (Nat × PendingSwap) → Nat → List (Nat × PendingSwap)
  | [], _ => []
  | p :: rest, k => if p.1 = k then mapDelete rest k else p :: mapDelete rest k

/-- JavaScript `Map.prototype.set` on the association-list model: the new
binding shadows (replaces) any previous binding of the same key. -/
def mapSet (m : List (Nat × PendingSwap)) (k : Nat) (v : PendingSwap) :
    List (Nat × PendingSwap) :=
  (k, v) :: mapDelete m k

/-- JavaScript `Set.prototype.has` on the list model. -/
def setHas : List Nat → Nat → Bool
  | [], _ => false
  | x :: rest, k => if x = k then true else setHas rest k

/-- JavaScript `Set.prototype.add` on the list model. -/
def setAdd (s : List Nat) (k : Nat) : List Nat :=
  if setHas s k then s else k :: s

/-- Return value of `executeSwapOnDex` (lines 158-162), minus the random
transaction hash that nothing reads. -/
structure DexResult where
  success : Bool
  solReceived : ℚ
deriving DecidableEq

/-- `executeSwapOnDex` (lines 147-163): computes `solAmount = usdcAmount /
exchangeRate` and reports it as `solReceived`. The source constructs
`success: true` unconditionally; `outcome` keeps the flag abstract so the
failure branch at the call site (line 328) is expressible. -/
def executeSwapOnDex (usdcAmount exchangeRate : ℚ) (outcome : Bool) : DexResult :=
  { success := outcome, solReceived := usdcAmount / exchangeRate }

/-- Return value of `sendSolToAgent` (lines 173-176), minus the random
transaction hash. -/
structure SendResult where
  success : Bool
deriving DecidableEq

/-- `sendSolToAgent` (lines 165-177): logs and reports success. The source
constructs `success: true` unconditionally; `outcome` keeps the flag
abstract so the failure branch at the call site (line 337) is expressible. -/
def sendSolToAgent (recipientAddress : String) (solAmount : ℚ) (outcome : Bool) :
    SendResult :=
  { success := outcome }

/-- The arguments the swap service passes to the external
`swapServiceAgent.createPaymentRequest` call (lines 239-246): the freshly
generated request id and the demanded amount in payment units. -/
structure PaymentRequestCall where
  id : Nat
  amount : ℚ
deriving DecidableEq

/-- Result returned by the `createSwapRequest` tool handler: either the
"Failed to create payment request, no URL returned" error (line 250), or
the success payload of lines 272-282 (url, usdcAmount, exchangeRate,
solAmount, paymentRequired). -/
inductive CreateResult where
  | noUrl : CreateResult
  | ok : String → ℚ → ℚ → ℚ → ℚ → CreateResult
deriving DecidableEq

/-- Everything observable about one `createSwapRequest` call: the value it
returns, the payment request it issued to the external payment system, and
the state it leaves behind. -/
structure CreateOutput where
  result : CreateResult
  issued : PaymentRequestCall
  state : SwapState

/-- The `createSwapRequest` tool handler (lines 229-283). `oracle` is the
outcome of the awaited oracle fetch; `paymentUrl` is the URL field of the
awaited `createPaymentRequest` response (`none` models a missing URL,
taking the error return at line 249 without touching `pendingSwaps`).
There is no validation of `usdcAmount` anywhere in the handler. -/
def createSwapRequest (usdcAmount : ℚ) (oracle : OracleOutcome)
    (paymentUrl : Option String) (s : SwapState) : CreateOutput :=
  let exchangeRate := getCurrentExchangeRate oracle
  let solAmount := usdcAmount / exchangeRate
  let paymentUnits := usdcAmount * 100
  let paymentRequestId := s.nextId
  let issued : PaymentRequestCall := ⟨paymentRequestId, paymentUnits⟩
  match paymentUrl with
  | none => ⟨CreateResult.noUrl, issued, { s with nextId := s.nextId + 1 }⟩
  | some url =>
      ⟨CreateResult.ok url usdcAmount exchangeRate solAmount paymentUnits, issued,
        { s with
            pendingSwaps := mapSet s.pendingSwaps paymentRequestId
              ⟨usdcAmount, url, solAmount, exchangeRate⟩,
            nextId := s.nextId + 1 }⟩

/-- Result returned by the `executeSwap` tool handler, one constructor per
return site: `invalidProof` for a throwing `verifyPaymentReceipt`,
`unknownRequest` for "Invalid or expired payment request token" (line 316),
`alreadyExecuted` for "This swap has already been executed" (line 320),
`exchangeFailed` for "Swap execution failed" (line 329), `transferFailed`
for "Failed to send SOL" (line 338), and `success` carrying usdcSwapped,
solReceived, exchangeRate and recipientAddress (lines 345-353). -/
inductive ExecuteResult where
  | invalidProof : ExecuteResult
  | unknownRequest : ExecuteResult
  | alreadyExecuted : ExecuteResult
  | exchangeFailed : ExecuteResult
  | transferFailed : ExecuteResult
  | success : ℚ → ℚ → ℚ → String → ExecuteResult
deriving DecidableEq

/-- The `executeSwap` tool handler (lines 298-354). `verified` is the
outcome of the awaited `verifyPaymentReceipt` call: `none` if it threw,
`some paymentRequestId` with the extracted bound request id otherwise.
`dexOutcome` and `sendOutcome` are the success flags of the simulated DEX
and transfer steps. The source checks `pendingSwaps` (line 314), then
`completedSwaps` (line 319), runs the two simulated steps, and only then
records completion (lines 342-343). -/
def executeSwap (verified : Option Nat) (dexOutcome sendOutcome : Bool)
    (recipientAddress : String) (s : SwapState) : ExecuteResult × SwapState :=
  match verified with
  | none => (ExecuteResult.invalidProof, s)
  | some paymentRequestId =>
      match mapGet s.pendingSwaps paymentRequestId with
      | none => (ExecuteResult.unknownRequest, s)
      | some pendingSwap =>
          if setHas s.completedSwaps paymentRequestId then
            (ExecuteResult.alreadyExecuted, s)
          else
            let swapResult :=
              executeSwapOnDex pendingSwap.usdcAmount pendingSwap.exchangeRate dexOutcome
            if swapResult.success = false then
              (ExecuteResult.exchangeFailed, s)
            else
              let sendResult :=
                sendSolToAgent recipientAddress swapResult.solReceived sendOutcome
              if sendResult.success = false then
                (ExecuteResult.transferFailed, s)
              else
                (ExecuteResult.success pendingSwap.usdcAmount swapResult.solReceived
                   pendingSwap.exchangeRate recipientAddress,
                 { s with
                     completedSwaps := setAdd s.completedSwaps paymentRequestId,
                     pendingSwaps := mapDelete s.pendingSwaps paymentRequestId })

/-- One operation against the swap service: a `createSwapRequest` call or
an `executeSwap` call, each carrying the outcomes of its external
collaborators. -/
inductive Op where
  | create : ℚ → OracleOutcome → Option String → Op
  | exec : Option Nat → Bool → Bool → String → Op

/-- The state effect of one operation. -/
def stepOp : Op → SwapState → SwapState
  | Op.create a o u, s => (createSwapRequest a o u s).state
  | Op.exec v d se r, s => (executeSwap v d se r s).2

/-- Run a sequence of operations left to right. -/
def runOps (ops : List Op) (s : SwapState) : SwapState :=
  ops.foldl (fun t op => stepOp op t) s

/-- An operation avoids a request id when it is not an `executeSwap` call
whose verifier-extracted id is that id (a `createSwapRequest` call always
targets a freshly generated id). -/
def Op.avoids : Op → Nat → Bool
  | Op.create _ _ _, _ => true
  | Op.exec v _ _ _, pid => v ≠ some pid


/-- Progress of one in-flight `executeSwap` call through its suspension
points, for reasoning about overlapping calls on the Node event loop. The
handler body runs in atomic blocks separated by its awaits: after the
awaited receipt fetch and `verifyPaymentReceipt` (lines 302-307) the call
is `checking`; the pending lookup and the `completedSwaps` replay check
(lines 314-321) run atomically and either finish the call with an error or
start the awaited simulated DEX step (`awaitingDex`, line 324, which in the
source resolves with success: true after a 1 s delay); the success test and
the start of the awaited transfer (lines 328-333) move it to
`awaitingSend`; when the transfer resolves (success: true after 0.5 s) the
final block (lines 337-353) records completion and returns. -/
inductive TaskPhase where
  | checking : TaskPhase
  | awaitingDex : PendingSwap → TaskPhase
  | awaitingSend : PendingSwap → ℚ → TaskPhase
  | finished : ExecuteResult → TaskPhase
deriving DecidableEq

/-- Run one atomic block of an in-flight `executeSwap` call for the bound
request id against the shared module-level state. -/
def stepTask (paymentRequestId : Nat) (recipientAddress : String)
    (ph : TaskPhase) (s : SwapState) : TaskPhase × SwapState :=
  match ph with
  | TaskPhase.checking =>
      match mapGet s.pendingSwaps paymentRequestId with
      | none => (TaskPhase.finished ExecuteResult.unknownRequest, s)
      | some pendingSwap =>
          if setHas s.completedSwaps paymentRequestId then
            (TaskPhase.finished ExecuteResult.alreadyExecuted, s)
          else
            (TaskPhase.awaitingDex pendingSwap, s)
  | TaskPhase.awaitingDex pendingSwap =>
      (TaskPhase.awaitingSend pendingSwap
         (pendingSwap.usdcAmount / pendingSwap.exchangeRate), s)
  | TaskPhase.awaitingSend pendingSwap solReceived =>
      (TaskPhase.finished
         (ExecuteResult.success pendingSwap.usdcAmount solReceived
            pendingSwap.exchangeRate recipientAddress),
       { s with
           completedSwaps := setAdd s.completedSwaps paymentRequestId,
           pendingSwaps := mapDelete s.pendingSwaps paymentRequestId })
  | TaskPhase.finished r => (TaskPhase.finished r, s)

/-- Two overlapping `executeSwap` calls sharing the module-level state. -/
structure ConcState where
  shared : SwapState
  taskA : TaskPhase
  taskB : TaskPhase
deriving DecidableEq

/-- Let one of the two in-flight calls run its next atomic block
(`false` steps the first call, `true` the second). -/
def stepConc (pidA pidB : Nat) (recipientAddress : String)
    (c : ConcState) (who : Bool) : ConcState :=
  if who then
    let next := stepTask pidB recipientAddress c.taskB c.shared
    ⟨next.2, c.taskA, next.1⟩
  else
    let next := stepTask pidA recipientAddress c.taskA c.shared
    ⟨next.2, next.1, c.taskB⟩

/-- Run an interleaving schedule of the two overlapping calls. -/
def runSched (pidA pidB : Nat) (recipientAddress : String)
    (sched : List Bool) (c : ConcState) : ConcState :=
  sched.foldl (stepConc pidA pidB recipientAddress) c

/-- A pending entry as created by a 25-USDC swap request quoted at the
fallback rate of 150 USDC/SOL. -/
def sampleSwap : PendingSwap := ⟨25, "https://pay.example/req", 25 / 150, 150⟩

/-- A state holding exactly one pending request, id 0, and no completed
swaps. -/
def samplePendingState : SwapState := ⟨[(0, sampleSwap)], [], 1⟩

/-- Create a 25-USDC request (id 0) and then execute it once, both
downstream steps succeeding. -/
def sampleOps : List Op :=
  [Op.create 25 OracleOutcome.fetchError (some "https://pay.example/req"),
   Op.exec (some 0) true true "7VQo3HWesNfBys5VXJF3NcE5JCBsRs25pAoBxD5MJYGp"]

/-- Ledger invariant maintained by the two operations: every key of either
collection is a previously generated id (below the counter), and no key is
in both collections at once. -/
structure LedgerInv (s : SwapState) : Prop where
  pendingLt : ∀ k, (mapGet s.pendingSwaps k).isSome = true → k < s.nextId
  completedLt : ∀ k, setHas s.completedSwaps k = true → k < s.nextId
  disj : ∀ k, setHas s.completedSwaps k = true → mapGet s.pendingSwaps k = none
/-- Lookup after a delete: the deleted key is gone, other keys unchanged. -/
theorem mapGet_mapDelete (k k' : Nat) (m : List (Nat × PendingSwap)) :
    mapGet (mapDelete m k) k' = if k' = k then none else mapGet m k' := by
  induction m with
  | nil => by_cases h : k' = k <;> simp [mapDelete, mapGet, h]
  | cons p rest ih =>
      by_cases h1 : p.1 = k <;> by_cases h2 : k' = k <;> by_cases h3 : p.1 = k' <;>
        simp_all [mapDelete, mapGet]

/-- Lookup after a set at the same key. -/
theorem mapGet_mapSet_self (m : List (Nat × PendingSwap)) (k : Nat) (v : PendingSwap) :
    mapGet (mapSet m k v) k = some v := by
  simp [mapSet, mapGet]

/-- Lookup after a set at a different key. -/
theorem mapGet_mapSet_ne (m : List (Nat × PendingSwap)) (k k' : Nat) (v : PendingSwap)
    (h : k' ≠ k) : mapGet (mapSet m k v) k' = mapGet m k' := by
  have h2 : k ≠ k' := fun hh => h hh.symm
  simp [mapSet, mapGet, h2, mapGet_mapDelete, h]

/-- Membership after an add. -/
theorem setHas_setAdd (s : List Nat) (k k' : Nat) :
    setHas (setAdd s k) k' = (decide (k' = k) || setHas s k') := by
  by_cases hs : setHas s k = true
  · by_cases h : k' = k
    · subst h; simp [setAdd, hs]
    · simp [setAdd, hs, h]
  · by_cases h : k' = k
    · subst h; simp [setAdd, Bool.not_eq_true] at hs ⊢
      simp [hs, setHas]
    · simp [setAdd, Bool.not_eq_true] at hs
      simp [setAdd, hs, setHas, h]
      intro hk
      exact absurd hk.symm h

/-- Branch equation: a throwing `verifyPaymentReceipt` fails the call and
leaves the state alone. -/
theorem executeSwap_invalid_eq (d se : Bool) (r : String) (s : SwapState) :
    executeSwap none d se r s = (ExecuteResult.invalidProof, s) := rfl

/-- Branch equation: an id absent from `pendingSwaps` takes the
"Invalid or expired payment request token" return, leaving the state alone. -/
theorem executeSwap_unknown_eq (pid : Nat) (d se : Bool) (r : String) (s : SwapState)
    (hg : mapGet s.pendingSwaps pid = none) :
    executeSwap (some pid) d se r s = (ExecuteResult.unknownRequest, s) := by
  simp [executeSwap, hg]

/-- Branch equation: a pending id that is also in `completedSwaps` takes the
"This swap has already been executed" return, leaving the state alone. -/
theorem executeSwap_already_eq (pid : Nat) (d se : Bool) (r : String) (s : SwapState)
    (e : PendingSwap) (hg : mapGet s.pendingSwaps pid = some e)
    (hc : setHas s.completedSwaps pid = true) :
    executeSwap (some pid) d se r s = (ExecuteResult.alreadyExecuted, s) := by
  simp [executeSwap, hg, hc]

/-- Branch equation: a failing DEX step takes the "Swap execution failed"
return, leaving the state alone. -/
theorem executeSwap_dexFail_eq (pid : Nat) (se : Bool) (r : String) (s : SwapState)
    (e : PendingSwap) (hg : mapGet s.pendingSwaps pid = some e)
    (hc : setHas s.completedSwaps pid = false) :
    executeSwap (some pid) false se r s = (ExecuteResult.exchangeFailed, s) := by
  simp [executeSwap, hg, hc, executeSwapOnDex]

/-- Branch equation: a failing transfer step takes the "Failed to send SOL"
return, leaving the state alone. -/
theorem executeSwap_sendFail_eq (pid : Nat) (r : String) (s : SwapState)
    (e : PendingSwap) (hg : mapGet s.pendingSwaps pid = some e)
    (hc : setHas s.completedSwaps pid = false) :
    executeSwap (some pid) true false r s = (ExecuteResult.transferFailed, s) := by
  simp [executeSwap, hg, hc, executeSwapOnDex, sendSolToAgent]

/-- Branch equation: the success path returns the settlement payload and
records completion — adding the id to `completedSwaps` and deleting it from
`pendingSwaps` in the same step. -/
theorem executeSwap_success_eq (pid : Nat) (r : String) (s : SwapState)
    (e : PendingSwap) (hg : mapGet s.pendingSwaps pid = some e)
    (hc : setHas s.completedSwaps pid = false) :
    executeSwap (some pid) true true r s =
      (ExecuteResult.success e.usdcAmount (e.usdcAmount / e.exchangeRate)
         e.exchangeRate r,
       ⟨mapDelete s.pendingSwaps pid, setAdd s.completedSwaps pid, s.nextId⟩) := by
  simp [executeSwap, hg, hc, executeSwapOnDex, sendSolToAgent]


/-- The server-start state satisfies the ledger invariant. -/
theorem ledgerInv_initState : LedgerInv initState := by
  refine ⟨?_, ?_, ?_⟩ <;> intro k h <;> simp [initState, mapGet, setHas] at h

/-- A `createSwapRequest` call preserves the ledger invariant. -/
theorem ledgerInv_create (a : ℚ) (o : OracleOutcome) (u : Option String)
    (s : SwapState) (h : LedgerInv s) : LedgerInv (createSwapRequest a o u s).state := by
  cases u with
  | none =>
      refine ⟨?_, ?_, ?_⟩ <;> intro k hk <;>
        simp only [createSwapRequest] at hk ⊢
      · exact Nat.lt_succ_of_lt (h.pendingLt k hk)
      · exact Nat.lt_succ_of_lt (h.completedLt k hk)
      · exact h.disj k hk
  | some url =>
      refine ⟨?_, ?_, ?_⟩ <;> intro k hk <;>
        simp only [createSwapRequest] at hk ⊢
      · by_cases hke : k = s.nextId
        · omega
        · rw [mapGet_mapSet_ne _ _ _ _ hke] at hk
          exact Nat.lt_succ_of_lt (h.pendingLt k hk)
      · exact Nat.lt_succ_of_lt (h.completedLt k hk)
      · have hlt : k < s.nextId := h.completedLt k hk
        have hke : k ≠ s.nextId := by omega
        rw [mapGet_mapSet_ne _ _ _ _ hke]
        exact h.disj k hk

/-- An `executeSwap` call preserves the ledger invariant. -/
theorem ledgerInv_exec (v : Option Nat) (d se : Bool) (r : String) (s : SwapState)
    (h : LedgerInv s) : LedgerInv (executeSwap v d se r s).2 := by
  cases v with
  | none => exact h
  | some pid =>
      cases hg : mapGet s.pendingSwaps pid with
      | none => rw [executeSwap_unknown_eq pid d se r s hg]; exact h
      | some e =>
          cases hc : setHas s.completedSwaps pid with
          | true => rw [executeSwap_already_eq pid d se r s e hg hc]; exact h
          | false =>
              cases d with
              | false => rw [executeSwap_dexFail_eq pid se r s e hg hc]; exact h
              | true =>
                  cases se with
                  | false => rw [executeSwap_sendFail_eq pid r s e hg hc]; exact h
                  | true =>
                      rw [executeSwap_success_eq pid r s e hg hc]
                      have hpidlt : pid < s.nextId := by
                        refine h.pendingLt pid ?_
                        rw [hg]; rfl
                      refine ⟨?_, ?_, ?_⟩ <;> intro k hk <;> dsimp only at hk ⊢
                      · rw [mapGet_mapDelete] at hk
                        by_cases hke : k = pid
                        · rw [if_pos hke] at hk; simp at hk
                        · rw [if_neg hke] at hk
                          exact h.pendingLt k hk
                      · rw [setHas_setAdd] at hk
                        rcases Bool.or_eq_true_iff.mp hk with hk1 | hk2
                        · have : k = pid := of_decide_eq_true hk1
                          omega
                        · exact h.completedLt k hk2
                      · rw [setHas_setAdd] at hk
                        rw [mapGet_mapDelete]
                        by_cases hke : k = pid
                        · rw [if_pos hke]
                        · rw [if_neg hke]
                          rcases Bool.or_eq_true_iff.mp hk with hk1 | hk2
                          · exact absurd (of_decide_eq_true hk1) hke
                          · exact h.disj k hk2

/-- Any single operation preserves the ledger invariant. -/
theorem ledgerInv_stepOp (op : Op) (s : SwapState) (h : LedgerInv s) :
    LedgerInv (stepOp op s) := by
  cases op with
  | create a o u => exact ledgerInv_create a o u s h
  | exec v d se r => exact ledgerInv_exec v d se r s h

/-- Any operation sequence preserves the ledger invariant. -/
theorem ledgerInv_runOps (ops : List Op) :
    ∀ s : SwapState, LedgerInv s → LedgerInv (runOps ops s) := by
  induction ops with
  | nil => intro s h; exact h
  | cons op rest ih =>
      intro s h
      have hstep : runOps (op :: rest) s = runOps rest (stepOp op s) := rfl
      rw [hstep]
      exact ih (stepOp op s) (ledgerInv_stepOp op s h)

/-- The id counter never decreases. -/
theorem stepOp_nextId_le (op : Op) (s : SwapState) :
    s.nextId ≤ (stepOp op s).nextId := by
  cases op with
  | create a o u =>
      cases u <;> exact Nat.le_succ s.nextId
  | exec v d se r =>
      cases v with
      | none => exact Nat.le_refl _
      | some pid =>
          cases hg : mapGet s.pendingSwaps pid with
          | none =>
              have := executeSwap_unknown_eq pid d se r s hg
              simp only [stepOp, this]
              exact Nat.le_refl _
          | some e =>
              cases hc : setHas s.completedSwaps pid with
              | true =>
                  have := executeSwap_already_eq pid d se r s e hg hc
                  simp only [stepOp, this]
                  exact Nat.le_refl _
              | false =>
                  cases d with
                  | false =>
                      have := executeSwap_dexFail_eq pid se r s e hg hc
                      simp only [stepOp, this]
                      exact Nat.le_refl _
                  | true =>
                      cases se with
                      | false =>
                          have := executeSwap_sendFail_eq pid r s e hg hc
                          simp only [stepOp, this]
                          exact Nat.le_refl _
                      | true =>
                          have := executeSwap_success_eq pid r s e hg hc
                          simp only [stepOp, this]
                          exact Nat.le_refl _

/-- An operation that avoids a generated id leaves that id's pending entry
untouched. -/
theorem frame_stepOp (op : Op) (s : SwapState) (pid : Nat)
    (hlt : pid < s.nextId) (hav : op.avoids pid = true) :
    mapGet (stepOp op s).pendingSwaps pid = mapGet s.pendingSwaps pid := by
  cases op with
  | create a o u =>
      cases u with
      | none => rfl
      | some url =>
          have hne : pid ≠ s.nextId := by omega
          simp only [stepOp, createSwapRequest]
          exact mapGet_mapSet_ne _ _ _ _ hne
  | exec v d se r =>
      cases v with
      | none => rfl
      | some pid' =>
          have hne : pid' ≠ pid := by
            simp only [Op.avoids] at hav
            intro hh
            rw [hh] at hav
            simp at hav
          cases hg : mapGet s.pendingSwaps pid' with
          | none =>
              have := executeSwap_unknown_eq pid' d se r s hg
              simp only [stepOp, this]
          | some e =>
              cases hc : setHas s.completedSwaps pid' with
              | true =>
                  have := executeSwap_already_eq pid' d se r s e hg hc
                  simp only [stepOp, this]
              | false =>
                  cases d with
                  | false =>
                      have := executeSwap_dexFail_eq pid' se r s e hg hc
                      simp only [stepOp, this]
                  | true =>
                      cases se with
                      | false =>
                          have := executeSwap_sendFail_eq pid' r s e hg hc
                          simp only [stepOp, this]
                      | true =>
                          have := executeSwap_success_eq pid' r s e hg hc
                          simp only [stepOp, this]
                          rw [mapGet_mapDelete]
                          rw [if_neg (fun hh => hne hh.symm)]

/-- Running any sequence of operations that avoid a generated id leaves
that id's pending entry untouched, and preserves the ledger invariant and
the id bound along the way. -/
theorem frame_runOps (pid : Nat) : ∀ (ops : List Op) (s : SwapState), LedgerInv s →
    pid < s.nextId → (∀ op ∈ ops, op.avoids pid = true) →
    LedgerInv (runOps ops s) ∧ pid < (runOps ops s).nextId ∧
      mapGet (runOps ops s).pendingSwaps pid = mapGet s.pendingSwaps pid := by
  intro ops
  induction ops with
  | nil => intro s hInv hlt _; exact ⟨hInv, hlt, rfl⟩
  | cons op rest ih =>
      intro s hInv hlt hav
      have hstep : runOps (op :: rest) s = runOps rest (stepOp op s) := rfl
      have h1 : LedgerInv (stepOp op s) := ledgerInv_stepOp op s hInv
      have h2 : pid < (stepOp op s).nextId :=
        Nat.lt_of_lt_of_le hlt (stepOp_nextId_le op s)
      have h3 := frame_stepOp op s pid hlt (hav op (List.mem_cons_self op rest))
      have hrest := ih (stepOp op s) h1 h2
        (fun o ho => hav o (List.mem_cons_of_mem op ho))
      rw [hstep]
      exact ⟨hrest.1, hrest.2.1, by rw [hrest.2.2, h3]⟩


/-- C1: the claim that among any number of `executeSwap` calls for the same
request id at most one returns success, and no later call re-runs the
exchange and transfer steps, fails for overlapping calls: from a state in
which request 0 is pending, two concurrent `executeSwap` calls bound to
id 0, interleaved so that both run the pending lookup and the replay check
(lines 314-321) before either awaits the simulated DEX step, each return
the full success payload — and each runs the simulated exchange and
transfer. The replay check and the completion marking (lines 342-343) are
separated by two awaits, so the check-then-act is not atomic. -/
theorem executeSwap_overlapping_calls_double_success :
    (runSched 0 0 "7VQo3HWesNfBys5VXJF3NcE5JCBsRs25pAoBxD5MJYGp"
        [false, true, false, false, true, true]
        ⟨samplePendingState, TaskPhase.checking, TaskPhase.checking⟩).taskA =
      TaskPhase.finished (ExecuteResult.success 25 (25 / 150) 150
        "7VQo3HWesNfBys5VXJF3NcE5JCBsRs25pAoBxD5MJYGp") ∧
    (runSched 0 0 "7VQo3HWesNfBys5VXJF3NcE5JCBsRs25pAoBxD5MJYGp"
        [false, true, false, false, true, true]
        ⟨samplePendingState, TaskPhase.checking, TaskPhase.checking⟩).taskB =
      TaskPhase.finished (ExecuteResult.success 25 (25 / 150) 150
        "7VQo3HWesNfBys5VXJF3NcE5JCBsRs25pAoBxD5MJYGp") := by
  simp [runSched, stepConc, stepTask, mapGet, mapDelete, setHas, setAdd,
    samplePendingState, sampleSwap]

/-- C2, counterexample: after a request is created and successfully
executed (`sampleOps`), a second `executeSwap` for the same id 0 returns
the `unknownRequest` kind ("Invalid or expired payment request token"),
not the `alreadyExecuted` kind — exactly the same error an id the ledger
never created (id 5 on the empty state) receives. The replay is therefore
not distinguishable from a fresh failure. -/
theorem executeSwap_replay_same_error_as_unknown :
    (executeSwap (some 0) true true "addr" (runOps sampleOps initState)).1 =
      ExecuteResult.unknownRequest ∧
    (executeSwap (some 0) true true "addr" (runOps sampleOps initState)).1 ≠
      ExecuteResult.alreadyExecuted ∧
    (executeSwap (some 5) true true "addr" initState).1 =
      ExecuteResult.unknownRequest := by
  refine ⟨?_, ?_, ?_⟩ <;> decide

/-- C2, amended: a repeated `executeSwap` against an already settled id
takes the `pendingSwaps`-miss branch — successful execution deleted the id
from `pendingSwaps` — and so returns the `unknownRequest` error, the same
kind as for an id never created, leaving the state unchanged; the
`alreadyExecuted` branch is unreachable from any reachable state. -/
theorem executeSwap_replay_hits_unknown_branch (ops : List Op) (pid : Nat)
    (d se : Bool) (r : String)
    (h : setHas (runOps ops initState).completedSwaps pid = true) :
    executeSwap (some pid) d se r (runOps ops initState) =
      (ExecuteResult.unknownRequest, runOps ops initState) := by
  have hInv := ledgerInv_runOps ops initState ledgerInv_initState
  exact executeSwap_unknown_eq pid d se r _ (hInv.disj pid h)

/-- Witness for C2's amended theorem at a concrete settled request. -/
theorem executeSwap_replay_hits_unknown_branch_witness :
    setHas (runOps sampleOps initState).completedSwaps 0 = true ∧
    executeSwap (some 0) true true "addr" (runOps sampleOps initState) =
      (ExecuteResult.unknownRequest, runOps sampleOps initState) :=
  ⟨by decide,
   executeSwap_replay_hits_unknown_branch sampleOps 0 true true "addr" (by decide)⟩

/-- C3, counterexample: when the simulated DEX step fails on a pending
request, `executeSwap` returns the `exchangeFailed` error before reaching
the completion-marking lines 342-343, so the request is NOT `Completed`
after the call: the state is unchanged, the id is still pending and not
completed — contradicting the claim that it remains `Completed`. -/
theorem executeSwap_exchange_failure_leaves_pending :
    (executeSwap (some 0) false true "addr" samplePendingState).1 =
      ExecuteResult.exchangeFailed ∧
    (executeSwap (some 0) false true "addr" samplePendingState).2 =
      samplePendingState ∧
    setHas (executeSwap (some 0) false true "addr"
      samplePendingState).2.completedSwaps 0 = false ∧
    (mapGet (executeSwap (some 0) false true "addr"
      samplePendingState).2.pendingSwaps 0).isSome = true := by
  refine ⟨?_, ?_, ?_, ?_⟩ <;>
    simp [executeSwap, executeSwapOnDex, mapGet, setHas, samplePendingState,
      sampleSwap]

/-- C3, amended: if the downstream simulated exchange or transfer step
fails after verification and lookup succeed, `executeSwap` returns the
corresponding failure error and leaves the ledger untouched — the request
remains `Pending`, not `Completed`, because completion is recorded only
after both downstream steps succeed. -/
theorem executeSwap_downstream_failure_keeps_request_pending (s : SwapState)
    (pid : Nat) (e : PendingSwap) (d se : Bool) (r : String)
    (hg : mapGet s.pendingSwaps pid = some e)
    (hc : setHas s.completedSwaps pid = false)
    (hfail : d = false ∨ se = false) :
    (executeSwap (some pid) d se r s).2 = s ∧
    ((executeSwap (some pid) d se r s).1 = ExecuteResult.exchangeFailed ∨
     (executeSwap (some pid) d se r s).1 = ExecuteResult.transferFailed) := by
  cases d with
  | false => rw [executeSwap_dexFail_eq pid se r s e hg hc]; exact ⟨rfl, Or.inl rfl⟩
  | true =>
      cases se with
      | false => rw [executeSwap_sendFail_eq pid r s e hg hc]; exact ⟨rfl, Or.inr rfl⟩
      | true => rcases hfail with hf | hf <;> exact absurd hf (by decide)

/-- Witness for C3's amended theorem: a failing transfer step on a concrete
pending request. -/
theorem executeSwap_downstream_failure_keeps_request_pending_witness :
    (executeSwap (some 0) true false "addr" samplePendingState).2 =
      samplePendingState ∧
    ((executeSwap (some 0) true false "addr" samplePendingState).1 =
       ExecuteResult.exchangeFailed ∨
     (executeSwap (some 0) true false "addr" samplePendingState).1 =
       ExecuteResult.transferFailed) :=
  executeSwap_downstream_failure_keeps_request_pending samplePendingState 0
    sampleSwap true false "addr" rfl rfl (Or.inr rfl)

/-- C4: for a positive `sourceAmount`, `createSwapRequest` stores a pending
entry whose target amount is `sourceAmount / rate` with the rate fetched at
creation time, and a later `executeSwap` — after any interleaved operations
that do not target this request, including further creations quoted at
arbitrary different oracle rates — delivers exactly `sourceAmount / rate`
computed from the frozen stored values; `executeSwap` never consults the
oracle. -/
theorem createRequest_freezes_quote (a : ℚ) (o : OracleOutcome) (url : String)
    (s : SwapState) (ops : List Op) (r : String)
    (hInv : LedgerInv s) (ha : 0 < a)
    (hav : ∀ op ∈ ops, op.avoids s.nextId = true) :
    mapGet (createSwapRequest a o (some url) s).state.pendingSwaps s.nextId =
      some ⟨a, url, a / getCurrentExchangeRate o, getCurrentExchangeRate o⟩ ∧
    (executeSwap (some s.nextId) true true r
        (runOps ops (createSwapRequest a o (some url) s).state)).1 =
      ExecuteResult.success a (a / getCurrentExchangeRate o)
        (getCurrentExchangeRate o) r := by
  have hget1 : mapGet (createSwapRequest a o (some url) s).state.pendingSwaps
      s.nextId =
      some ⟨a, url, a / getCurrentExchangeRate o, getCurrentExchangeRate o⟩ :=
    mapGet_mapSet_self _ _ _
  refine ⟨hget1, ?_⟩
  have hInv1 : LedgerInv (createSwapRequest a o (some url) s).state :=
    ledgerInv_create a o (some url) s hInv
  have hlt1 : s.nextId < (createSwapRequest a o (some url) s).state.nextId :=
    Nat.lt_succ_self s.nextId
  obtain ⟨hInv2, hlt2, hget2⟩ :=
    frame_runOps s.nextId ops (createSwapRequest a o (some url) s).state hInv1
      hlt1 hav
  rw [hget1] at hget2
  have hc : setHas (runOps ops
      (createSwapRequest a o (some url) s).state).completedSwaps s.nextId =
      false := by
    cases hcc : setHas (runOps ops
        (createSwapRequest a o (some url) s).state).completedSwaps s.nextId with
    | false => rfl
    | true =>
        have hnone := hInv2.disj s.nextId hcc
        rw [hget2] at hnone
        exact absurd hnone (by simp)
  rw [executeSwap_success_eq s.nextId r _ _ hget2 hc]

/-- Witness for C4 at a concrete run: a 25-USDC request quoted at the
fallback rate 150, followed by an unrelated creation quoted at a different
oracle rate, then executed — delivering 25 / 150 SOL at rate 150. -/
theorem createRequest_freezes_quote_witness :
    (0 : ℚ) < 25 ∧
    (executeSwap (some 0) true true "addr"
        (runOps [Op.create 10 (OracleOutcome.response [⟨20000, -2⟩]) (some "u2")]
          (createSwapRequest 25 OracleOutcome.fetchError
            (some "https://pay.example/req") initState).state)).1 =
      ExecuteResult.success 25 (25 / getCurrentExchangeRate OracleOutcome.fetchError)
        (getCurrentExchangeRate OracleOutcome.fetchError) "addr" :=
  ⟨by norm_num,
   (createRequest_freezes_quote 25 OracleOutcome.fetchError
      "https://pay.example/req" initState
      [Op.create 10 (OracleOutcome.response [⟨20000, -2⟩]) (some "u2")] "addr"
      ledgerInv_initState (by norm_num) (by decide)).2⟩

/-- C5, counterexample: `createSwapRequest` with `sourceAmount = 0` does
not fail with any `InvalidAmount` error — no such error exists in the
handler — and does mutate state: it returns the success payload and inserts
a pending entry for the zero amount, after issuing a payment request for
0 payment units. -/
theorem createRequest_accepts_zero_amount :
    (createSwapRequest 0 OracleOutcome.fetchError (some "u") initState).result =
      CreateResult.ok "u" 0 150 0 0 ∧
    (createSwapRequest 0 OracleOutcome.fetchError (some "u")
      initState).state.pendingSwaps = [(0, ⟨0, "u", 0, 150⟩)] ∧
    (createSwapRequest 0 OracleOutcome.fetchError (some "u")
      initState).issued.amount = 0 := by
  refine ⟨?_, ?_, ?_⟩ <;>
    norm_num [createSwapRequest, getCurrentExchangeRate, FALLBACK_SOL_PRICE,
      initState, mapSet, mapDelete]

/-- C5, amended: `createSwapRequest` performs no validation of the amount:
a non-positive `sourceAmount` is processed exactly like a positive one —
the payment request is issued for `sourceAmount * 100` units and, when the
payment system returns a URL, a pending entry is stored and the success
payload returned. -/
theorem createRequest_no_amount_validation (a : ℚ) (o : OracleOutcome)
    (u : String) (s : SwapState) (h : a ≤ 0) :
    (createSwapRequest a o (some u) s).result =
      CreateResult.ok u a (getCurrentExchangeRate o)
        (a / getCurrentExchangeRate o) (a * 100) ∧
    mapGet (createSwapRequest a o (some u) s).state.pendingSwaps s.nextId =
      some ⟨a, u, a / getCurrentExchangeRate o, getCurrentExchangeRate o⟩ ∧
    (createSwapRequest a o (some u) s).issued = ⟨s.nextId, a * 100⟩ :=
  ⟨rfl, mapGet_mapSet_self _ _ _, rfl⟩

/-- Witness for C5's amended theorem at the concrete amount -5. -/
theorem createRequest_no_amount_validation_witness :
    (-5 : ℚ) ≤ 0 ∧
    ((createSwapRequest (-5) OracleOutcome.fetchError (some "u")
        initState).result =
      CreateResult.ok "u" (-5) (getCurrentExchangeRate OracleOutcome.fetchError)
        ((-5) / getCurrentExchangeRate OracleOutcome.fetchError) ((-5) * 100) ∧
    mapGet (createSwapRequest (-5) OracleOutcome.fetchError (some "u")
        initState).state.pendingSwaps initState.nextId =
      some ⟨-5, "u", (-5) / getCurrentExchangeRate OracleOutcome.fetchError,
        getCurrentExchangeRate OracleOutcome.fetchError⟩ ∧
    (createSwapRequest (-5) OracleOutcome.fetchError (some "u")
        initState).issued = ⟨initState.nextId, (-5) * 100⟩) :=
  ⟨by norm_num,
   createRequest_no_amount_validation (-5) OracleOutcome.fetchError "u"
     initState (by norm_num)⟩

/-- C6: `executeSwap` with a verified request id that the ledger never
created — present in neither `pendingSwaps` nor `completedSwaps` — returns
the `unknownRequest` error ("Invalid or expired payment request token")
and leaves the state exactly as it was. -/
theorem executeSwap_unknown_id_no_mutation (s : SwapState) (pid : Nat)
    (d se : Bool) (r : String) (hg : mapGet s.pendingSwaps pid = none)
    (hc : setHas s.completedSwaps pid = false) :
    executeSwap (some pid) d se r s = (ExecuteResult.unknownRequest, s) :=
  executeSwap_unknown_eq pid d se r s hg

/-- Witness for C6 at a concrete never-created id. -/
theorem executeSwap_unknown_id_no_mutation_witness :
    executeSwap (some 7) true true "addr" initState =
      (ExecuteResult.unknownRequest, initState) :=
  executeSwap_unknown_id_no_mutation initState 7 true true "addr" rfl rfl

/-- C7: `executeSwap` with a verifier-extracted bound id `x` reads and
mutates only request `x`: for every other id `y`, both its pending entry
(presence and fields) and its completion status are unchanged by the call,
whatever branch the call takes. -/
theorem executeSwap_frames_other_requests (s : SwapState) (x y : Nat)
    (d se : Bool) (r : String) (h : y ≠ x) :
    mapGet (executeSwap (some x) d se r s).2.pendingSwaps y =
      mapGet s.pendingSwaps y ∧
    setHas (executeSwap (some x) d se r s).2.completedSwaps y =
      setHas s.completedSwaps y := by
  cases hg : mapGet s.pendingSwaps x with
  | none => rw [executeSwap_unknown_eq x d se r s hg]; exact ⟨rfl, rfl⟩
  | some e =>
      cases hc : setHas s.completedSwaps x with
      | true => rw [executeSwap_already_eq x d se r s e hg hc]; exact ⟨rfl, rfl⟩
      | false =>
          cases d with
          | false => rw [executeSwap_dexFail_eq x se r s e hg hc]; exact ⟨rfl, rfl⟩
          | true =>
              cases se with
              | false =>
                  rw [executeSwap_sendFail_eq x r s e hg hc]; exact ⟨rfl, rfl⟩
              | true =>
                  rw [executeSwap_success_eq x r s e hg hc]
                  constructor
                  · dsimp only
                    rw [mapGet_mapDelete]
                    exact if_neg h
                  · dsimp only
                    rw [setHas_setAdd]
                    simp [h]

/-- Witness for C7: a successful execution of request 0 leaves request 1
untouched. -/
theorem executeSwap_frames_other_requests_witness :
    mapGet (executeSwap (some 0) true true "addr"
        samplePendingState).2.pendingSwaps 1 =
      mapGet samplePendingState.pendingSwaps 1 ∧
    setHas (executeSwap (some 0) true true "addr"
        samplePendingState).2.completedSwaps 1 =
      setHas samplePendingState.completedSwaps 1 :=
  executeSwap_frames_other_requests samplePendingState 0 1 true true "addr"
    (by decide)

/-- C8: the oracle wrapper absorbs every failure — a throwing fetch and a
response with no parsed price data both yield the fixed fallback constant
150 for SOL/USD rather than raising; on success it returns the published
price, mantissa times ten to the exponent, rounded to 2 decimal places
(shown symbolically and at a concrete Pyth-style update, 15012345678 with
exponent -8 rounding to 150.12); and `createSwapRequest` still succeeds
under a failing oracle, quoting at the fallback rate. -/
theorem getRate_fallback_and_rounding :
    getCurrentExchangeRate OracleOutcome.fetchError = 150 ∧
    getCurrentExchangeRate (OracleOutcome.response []) = 150 ∧
    (∀ (d : PythPriceData) (rest : List PythPriceData),
      getCurrentExchangeRate (OracleOutcome.response (d :: rest)) =
        (jsRound ((d.price : ℚ) * (10 : ℚ) ^ d.expo * 100) : ℚ) / 100) ∧
    getCurrentExchangeRate (OracleOutcome.response [⟨15012345678, -8⟩]) =
      15012 / 100 ∧
    (∀ (a : ℚ) (u : String) (s : SwapState),
      (createSwapRequest a OracleOutcome.fetchError (some u) s).result =
        CreateResult.ok u a 150 (a / 150) (a * 100)) := by
  refine ⟨rfl, rfl, fun d rest => rfl, ?_, fun a u s => rfl⟩
  norm_num [getCurrentExchangeRate, jsRound]

/-- C9: after any sequence of `createSwapRequest` and `executeSwap`
operations from server start, no request id is ever in both `pendingSwaps`
and `completedSwaps`: a successful execution deletes the id from the
pending map in the same atomic block that adds it to the completed set,
and every creation inserts only a fresh id. -/
theorem no_id_both_pending_and_completed (ops : List Op) (pid : Nat) :
    ((mapGet (runOps ops initState).pendingSwaps pid).isSome &&
      setHas (runOps ops initState).completedSwaps pid) = false := by
  have hInv := ledgerInv_runOps ops initState ledgerInv_initState
  cases hc : setHas (runOps ops initState).completedSwaps pid with
  | false => simp [hc]
  | true => simp [hInv.disj pid hc]

/-- C10: the payment request `createSwapRequest` issues to the external
payment system demands exactly `sourceAmount * 100` payment units (USDC
cents) under the freshly generated request id — and the entry stored for
that id carries `usdcAmount = sourceAmount`, so the demanded amount is the
stored amount scaled by 100. -/
theorem createRequest_demands_hundredfold_units (a : ℚ) (o : OracleOutcome)
    (u : Option String) (s : SwapState) :
    (createSwapRequest a o u s).issued.amount = a * 100 ∧
    (createSwapRequest a o u s).issued.id = s.nextId ∧
    (∀ url : String,
      mapGet (createSwapRequest a o (some url) s).state.pendingSwaps s.nextId =
        some ⟨a, url, a / getCurrentExchangeRate o, getCurrentExchangeRate o⟩) := by
  refine ⟨?_, ?_, fun url => mapGet_mapSet_self _ _ _⟩ <;> cases u <;> rfl
